import Mathlib

/-
  Shallow embedding of alsa-utils `topology/pre-process-class.c`: the
  class/attribute/constraint schema builder of the topology pre-processor.

  Config trees (`snd_config_t`) are modelled as an inductive of typed nodes;
  the C list helpers are modelled by Lean lists: `list_add` prepends,
  `list_add_tail` appends, and iteration order is list order.  C functions
  returning `int` and mutating through pointers become Lean functions
  returning the `Int` code paired with the updated value (partial mutation
  before an error is preserved, as in the C).  The `assert` in
  `tplg_parse_class_attribute_categories` is modelled by an `Option` layer:
  `none` is an assertion failure (process abort), `some (ret, v)` is a normal
  return.
-/

namespace AlsaTplg

/-- Errno value EINVAL; the source returns -EINVAL on invalid input. -/
def EINVAL : Int := 22

/-- Constant INT_MIN from limits.h for a 32-bit int. -/
def INT_MIN : Int := -2147483648

/-- Constant INT_MAX from limits.h for a 32-bit int. -/
def INT_MAX : Int := 2147483647

/-- Modelled from the spec: SNDRV_CTL_ELEM_ID_NAME_MAXLEN, the bounded name
length used by snd_strlcpy at every name/token copy (the defining header is
not part of the sources given). The exact numeric value is immaterial to the
claims; 44 is the ALSA value. -/
def SNDRV_CTL_ELEM_ID_NAME_MAXLEN : Nat := 44

/-- Model of snd_strlcpy into a buffer of size SNDRV_CTL_ELEM_ID_NAME_MAXLEN:
copies at most size-1 characters. -/
def sndStrlcpy (s : String) : String :=
  String.mk (s.toList.take (SNDRV_CTL_ELEM_ID_NAME_MAXLEN - 1))

/-- Modelled from the spec: the category mask bits
TPLG_CLASS_ATTRIBUTE_MASK_* (defined in topology.h, which is not part of the
sources given). The spec requires a bitset over
mandatory/immutable/deprecated/automatic/unique; they are modelled as five
distinct bits, and no claim depends on the numeric values. -/
def TPLG_CLASS_ATTRIBUTE_MASK_MANDATORY : Nat := 1

/-- Modelled from the spec: the immutable category bit. -/
def TPLG_CLASS_ATTRIBUTE_MASK_IMMUTABLE : Nat := 2

/-- Modelled from the spec: the deprecated category bit. -/
def TPLG_CLASS_ATTRIBUTE_MASK_DEPRECATED : Nat := 4

/-- Modelled from the spec: the automatic category bit. -/
def TPLG_CLASS_ATTRIBUTE_MASK_AUTOMATIC : Nat := 8

/-- Modelled from the spec: the unique category bit. -/
def TPLG_CLASS_ATTRIBUTE_MASK_UNIQUE : Nat := 16

/-- Modelled from the spec: TPLG_CLASS_PARAM_TYPE_ARGUMENT (topology.h is
not part of the sources given); only distinctness of the two param types
matters. -/
def TPLG_CLASS_PARAM_TYPE_ARGUMENT : Nat := 0

/-- Modelled from the spec: TPLG_CLASS_PARAM_TYPE_ATTRIBUTE. -/
def TPLG_CLASS_PARAM_TYPE_ATTRIBUTE : Nat := 1

/-- Modelled from the spec: SND_TPLG_CLASS_TYPE_BASE, passed (and never
read) by tplg_define_class. -/
def SND_TPLG_CLASS_TYPE_BASE : Nat := 0

/-- A config node (snd_config_t): an optional id plus a typed payload.
snd_config_get_id fails exactly when the id is absent; the payload is a
string scalar, an integer scalar, or a compound holding ordered children. -/
inductive SndConfig where
  | strNode (id : Option String) (s : String) : SndConfig
  | intNode (id : Option String) (v : Int) : SndConfig
  | compoundNode (id : Option String) (children : List SndConfig) : SndConfig

/-- snd_config_get_id: none models a negative return. -/
def SndConfig.getId : SndConfig → Option String
  | .strNode id _ => id
  | .intNode id _ => id
  | .compoundNode id _ => id

/-- snd_config_get_string: succeeds only on a string-typed node. -/
def SndConfig.getString : SndConfig → Option String
  | .strNode _ s => some s
  | _ => none

/-- snd_config_get_integer: succeeds only on an integer-typed node. -/
def SndConfig.getInteger : SndConfig → Option Int
  | .intNode _ v => some v
  | _ => none

/-- snd_config_for_each iterates the children of a compound in order;
a scalar has none. -/
def SndConfig.children : SndConfig → List SndConfig
  | .compoundNode _ cs => cs
  | _ => []

/-- struct tplg_attribute_ref: one valid-value entry of a constraint. -/
structure TplgAttributeRef where
  id : String
  string : String
  value : Int
deriving DecidableEq

/-- struct attribute_constraint. -/
structure AttributeConstraint where
  mask : Nat
  min : Int
  max : Int
  value_list : List TplgAttributeRef
deriving DecidableEq

/-- struct tplg_attribute. -/
structure TplgAttribute where
  name : String
  param_type : Nat
  token_ref : String
  constraint : AttributeConstraint
deriving DecidableEq

/-- struct tplg_class. -/
structure TplgClass where
  name : String
  num_args : Nat
  attribute_list : List TplgAttribute
deriving DecidableEq

/-- struct tplg_pre_processor (only the class_list field is used by this
translation unit); list_add prepends, so the head is the newest class. -/
structure TplgPreProcessor where
  class_list : List TplgClass
deriving DecidableEq

/-- tplg_class_lookup: first class in the registry with an exact name match. -/
def tplg_class_lookup (tplg_pp : TplgPreProcessor) (name : String) :
    Option TplgClass :=
  tplg_pp.class_list.find? (fun c => c.name == name)

/-- C atoi restricted to the call site's guarded case: the value of the
leading decimal-digit run (0 when there is none). -/
def atoi (s : String) : Int :=
  ((s.toList.takeWhile Char.isDigit).foldl
    (fun acc c => acc * 10 + (c.toNat - 48)) 0 : Nat)

/-- The source's digit heuristic: s[0] between the characters 0 and 9
(false for the empty string, whose s[0] is the NUL terminator). -/
def leadingDigit (s : String) : Bool :=
  match s.toList with
  | [] => false
  | c :: _ => decide ('0' ≤ c) && decide (c ≤ '9')

/-- The inner loop of tplg_parse_constraint_valid_value_ref: walk the
value_list and overwrite the value of the first ref whose id matches, then
break; later refs are untouched. -/
def updateValueRef (id : String) (value : Int) :
    List TplgAttributeRef → List TplgAttributeRef
  | [] => []
  | ref :: rest =>
    if ref.id = id then { ref with value := value } :: rest
    else ref :: updateValueRef id value rest

/-- The scalar reading of a tuple_values entry: a string must be
digit-prefixed and goes through atoi; otherwise the node must be an
integer. none models the error paths. -/
def tupleEntryValue (n : SndConfig) : Option Int :=
  match n.getString with
  | some s => if leadingDigit s then some (atoi s) else none
  | none => n.getInteger

/-- Loop body of tplg_parse_constraint_valid_value_ref over the children of
the tuple_values node. -/
def tplg_parse_constraint_valid_value_ref_loop :
    List SndConfig → TplgAttribute → Int × TplgAttribute
  | [], attr => (0, attr)
  | n :: rest, attr =>
    match n.getId with
    | none => (-EINVAL, attr)
    | some id =>
      match tupleEntryValue n with
      | none => (-EINVAL, attr)
      | some value =>
        tplg_parse_constraint_valid_value_ref_loop rest
          { attr with constraint :=
            { attr.constraint with
              value_list := updateValueRef id value attr.constraint.value_list } }

/-- tplg_parse_constraint_valid_value_ref. -/
def tplg_parse_constraint_valid_value_ref (cfg : SndConfig)
    (attr : TplgAttribute) : Int × TplgAttribute :=
  tplg_parse_constraint_valid_value_ref_loop cfg.children attr

/-- Loop body of tplg_parse_constraint_valid_values over the children of
the valid_values node: every entry must have an id and a string scalar; a
new ref with that string and the unresolved value -EINVAL is prepended
(list_add). -/
def tplg_parse_constraint_valid_values_loop :
    List SndConfig → TplgAttribute → Int × TplgAttribute
  | [], attr => (0, attr)
  | n :: rest, attr =>
    match n.getId with
    | none => (-EINVAL, attr)
    | some id =>
      match n.getString with
      | none => (-EINVAL, attr)
      | some s =>
        tplg_parse_constraint_valid_values_loop rest
          { attr with constraint :=
            { attr.constraint with
              value_list :=
                { id := id, string := s, value := -EINVAL } ::
                  attr.constraint.value_list } }

/-- tplg_parse_constraint_valid_values. -/
def tplg_parse_constraint_valid_values (cfg : SndConfig)
    (attr : TplgAttribute) : Int × TplgAttribute :=
  tplg_parse_constraint_valid_values_loop cfg.children attr

/-- Loop body of tplg_parse_class_constraints: children without an id are
skipped; min and max must be integers; valid_values and tuple_values
delegate; any other id is ignored. -/
def tplg_parse_class_constraints_loop :
    List SndConfig → TplgAttribute → Int × TplgAttribute
  | [], attr => (0, attr)
  | n :: rest, attr =>
    match n.getId with
    | none => tplg_parse_class_constraints_loop rest attr
    | some id =>
      if id = "min" then
        match n.getInteger with
        | none => (-EINVAL, attr)
        | some v =>
          tplg_parse_class_constraints_loop rest
            { attr with constraint := { attr.constraint with min := v } }
      else if id = "max" then
        match n.getInteger with
        | none => (-EINVAL, attr)
        | some v =>
          tplg_parse_class_constraints_loop rest
            { attr with constraint := { attr.constraint with max := v } }
      else if id = "valid_values" then
        match tplg_parse_constraint_valid_values n attr with
        | (err, attr') =>
          if err < 0 then (err, attr')
          else tplg_parse_class_constraints_loop rest attr'
      else if id = "tuple_values" then
        match tplg_parse_constraint_valid_value_ref n attr with
        | (err, attr') =>
          if err < 0 then (err, attr')
          else tplg_parse_class_constraints_loop rest attr'
      else tplg_parse_class_constraints_loop rest attr

/-- tplg_parse_class_constraints. -/
def tplg_parse_class_constraints (cfg : SndConfig) (attr : TplgAttribute) :
    Int × TplgAttribute :=
  tplg_parse_class_constraints_loop cfg.children attr

/-- Loop body of tplg_parse_class_attribute: dispatch on "constraints" (an
error there is turned into -EINVAL) and "token_ref" (must be a string,
copied bounded); other ids are ignored. -/
def tplg_parse_class_attribute_loop :
    List SndConfig → TplgAttribute → Int × TplgAttribute
  | [], attr => (0, attr)
  | n :: rest, attr =>
    match n.getId with
    | none => tplg_parse_class_attribute_loop rest attr
    | some id =>
      if id = "constraints" then
        match tplg_parse_class_constraints n attr with
        | (ret, attr') =>
          if ret < 0 then (-EINVAL, attr')
          else tplg_parse_class_attribute_loop rest attr'
      else if id = "token_ref" then
        match n.getString with
        | none => (-EINVAL, attr)
        | some s =>
          tplg_parse_class_attribute_loop rest
            { attr with token_ref := sndStrlcpy s }
      else tplg_parse_class_attribute_loop rest attr

/-- tplg_parse_class_attribute. -/
def tplg_parse_class_attribute (cfg : SndConfig) (attr : TplgAttribute) :
    Int × TplgAttribute :=
  tplg_parse_class_attribute_loop cfg.children attr

/-- The freshly calloc'ed and initialized attribute of
tplg_parse_class_attributes before its body is parsed: full integer bounds,
empty value list, empty mask, name copied from the node id. -/
def initAttribute (id : String) (type : Nat) : TplgAttribute :=
  { name := sndStrlcpy id
    param_type := type
    token_ref := ""
    constraint := { mask := 0, min := INT_MIN, max := INT_MAX, value_list := [] } }

/-- Loop body of tplg_parse_class_attributes: children without an id are
skipped; num_args is incremented for arguments before the body parse; on a
body error the function returns with the increment kept and the failing
attribute not appended; on success the attribute is appended
(list_add_tail). -/
def tplg_parse_class_attributes_loop (type : Nat) :
    List SndConfig → TplgClass → Int × TplgClass
  | [], cls => (0, cls)
  | n :: rest, cls =>
    match n.getId with
    | none => tplg_parse_class_attributes_loop type rest cls
    | some id =>
      let cls1 :=
        if type = TPLG_CLASS_PARAM_TYPE_ARGUMENT then
          { cls with num_args := cls.num_args + 1 }
        else cls
      match tplg_parse_class_attribute n (initAttribute id type) with
      | (ret, attr') =>
        if ret < 0 then (ret, cls1)
        else
          tplg_parse_class_attributes_loop type rest
            { cls1 with attribute_list := cls1.attribute_list ++ [attr'] }

/-- tplg_parse_class_attributes. -/
def tplg_parse_class_attributes (cfg : SndConfig) (cls : TplgClass)
    (type : Nat) : Int × TplgClass :=
  tplg_parse_class_attributes_loop type cfg.children cls

/-- tplg_get_attribute_by_name: first attribute with an exact (case
sensitive) name match. -/
def tplg_get_attribute_by_name (list : List TplgAttribute) (name : String) :
    Option TplgAttribute :=
  list.find? (fun attr => attr.name == name)

/-- The mutation through the pointer returned by tplg_get_attribute_by_name:
apply f to the first attribute with a matching name, leaving the rest. -/
def updateFirstAttr (name : String) (f : TplgAttribute → TplgAttribute) :
    List TplgAttribute → List TplgAttribute
  | [] => []
  | attr :: rest =>
    if attr.name = name then f attr :: rest
    else attr :: updateFirstAttr name f rest

/-- OR a category bit into an attribute's constraint mask. -/
def orMask (category : Nat) (attr : TplgAttribute) : TplgAttribute :=
  { attr with constraint :=
    { attr.constraint with mask := attr.constraint.mask ||| category } }

/-- Loop body of tplg_parse_class_attribute_category: every child must be a
string naming an attribute; unmatched names are skipped; matched names get
the category OR'd into the first matching attribute's mask. -/
def tplg_parse_class_attribute_category_loop (category : Nat) :
    List SndConfig → TplgClass → Int × TplgClass
  | [], cls => (0, cls)
  | n :: rest, cls =>
    match n.getString with
    | none => (-EINVAL, cls)
    | some id =>
      match tplg_get_attribute_by_name cls.attribute_list id with
      | none => tplg_parse_class_attribute_category_loop category rest cls
      | some _ =>
        tplg_parse_class_attribute_category_loop category rest
          { cls with attribute_list :=
              updateFirstAttr id (orMask category) cls.attribute_list }

/-- tplg_parse_class_attribute_category. -/
def tplg_parse_class_attribute_category (cfg : SndConfig) (cls : TplgClass)
    (category : Nat) : Int × TplgClass :=
  tplg_parse_class_attribute_category_loop category cfg.children cls

/-- The category selection of one iteration of
tplg_parse_class_attribute_categories: the four recognized bulk ids each
select their own bit; any other id leaves the incoming category (the C
local variable) unchanged. -/
def categoryOfId (id : String) (category : Nat) : Nat :=
  if id = "mandatory" then TPLG_CLASS_ATTRIBUTE_MASK_MANDATORY
  else if id = "immutable" then TPLG_CLASS_ATTRIBUTE_MASK_IMMUTABLE
  else if id = "deprecated" then TPLG_CLASS_ATTRIBUTE_MASK_DEPRECATED
  else if id = "automatic" then TPLG_CLASS_ATTRIBUTE_MASK_AUTOMATIC
  else category

/-- Loop body of tplg_parse_class_attribute_categories; category is the C
local variable, initialized to 0 once and kept across iterations. The
unique branch's assert(err >= 0) is modelled by none. -/
def tplg_parse_class_attribute_categories_loop :
    List SndConfig → Nat → TplgClass → Option (Int × TplgClass)
  | [], _, cls => some (0, cls)
  | n :: rest, category, cls =>
    match n.getId with
    | none => some (-EINVAL, cls)
    | some id =>
      if id = "unique" then
        match n.getString with
        | none => none
        | some s =>
          match tplg_get_attribute_by_name cls.attribute_list s with
          | none => tplg_parse_class_attribute_categories_loop rest category cls
          | some _ =>
            tplg_parse_class_attribute_categories_loop rest category
              { cls with attribute_list :=
                  (updateFirstAttr s (orMask TPLG_CLASS_ATTRIBUTE_MASK_UNIQUE)
                    cls.attribute_list) }
      else
        let category' := categoryOfId id category
        if category' = 0 then
          tplg_parse_class_attribute_categories_loop rest category' cls
        else
          match tplg_parse_class_attribute_category n cls category' with
          | (ret, cls') =>
            if ret < 0 then some (ret, cls')
            else tplg_parse_class_attribute_categories_loop rest category' cls'

/-- tplg_parse_class_attribute_categories. -/
def tplg_parse_class_attribute_categories (cfg : SndConfig)
    (cls : TplgClass) : Option (Int × TplgClass) :=
  tplg_parse_class_attribute_categories_loop cfg.children 0 cls

/-- Loop body of the class definition walk in tplg_define_class: children
without an id are skipped; DefineArgument and DefineAttribute build
attributes, attributes applies the categories; any other id is ignored. -/
def tplg_define_class_loop :
    List SndConfig → TplgClass → Option (Int × TplgClass)
  | [], cls => some (0, cls)
  | n :: rest, cls =>
    match n.getId with
    | none => tplg_define_class_loop rest cls
    | some id =>
      if id = "DefineArgument" then
        match tplg_parse_class_attributes n cls TPLG_CLASS_PARAM_TYPE_ARGUMENT with
        | (ret, cls') =>
          if ret < 0 then some (ret, cls')
          else tplg_define_class_loop rest cls'
      else if id = "DefineAttribute" then
        match tplg_parse_class_attributes n cls TPLG_CLASS_PARAM_TYPE_ATTRIBUTE with
        | (ret, cls') =>
          if ret < 0 then some (ret, cls')
          else tplg_define_class_loop rest cls'
      else if id = "attributes" then
        match tplg_parse_class_attribute_categories n cls with
        | none => none
        | some (ret, cls') =>
          if ret < 0 then some (ret, cls')
          else tplg_define_class_loop rest cls'
      else tplg_define_class_loop rest cls

/-- tplg_define_class: a nameless node is -EINVAL; an already-registered
name returns 0 untouched; otherwise a fresh class is registered (list_add,
so prepended) before its body is parsed, and mutations through the
registered pointer are modelled by placing the final (possibly partial)
class at the head even when the body parse fails. -/
def tplg_define_class (tplg_pp : TplgPreProcessor) (cfg : SndConfig)
    (_type : Nat) : Option (Int × TplgPreProcessor) :=
  match cfg.getId with
  | none => some (-EINVAL, tplg_pp)
  | some id =>
    match tplg_class_lookup tplg_pp id with
    | some _ => some (0, tplg_pp)
    | none =>
      match tplg_define_class_loop cfg.children
          { name := sndStrlcpy id, num_args := 0, attribute_list := [] } with
      | none => none
      | some (ret, cls') =>
        some (ret, { tplg_pp with class_list := cls' :: tplg_pp.class_list })

/-- Loop body of tplg_define_classes: children without an id are skipped;
the first failing tplg_define_class aborts with its error. -/
def tplg_define_classes_loop :
    List SndConfig → TplgPreProcessor → Option (Int × TplgPreProcessor)
  | [], pp => some (0, pp)
  | n :: rest, pp =>
    match n.getId with
    | none => tplg_define_classes_loop rest pp
    | some _ =>
      match tplg_define_class pp n SND_TPLG_CLASS_TYPE_BASE with
      | none => none
      | some (ret, pp') =>
        if ret < 0 then some (ret, pp')
        else tplg_define_classes_loop rest pp'

/-- tplg_define_classes. -/
def tplg_define_classes (tplg_pp : TplgPreProcessor) (cfg : SndConfig) :
    Option (Int × TplgPreProcessor) :=
  tplg_define_classes_loop cfg.children tplg_pp

/-- The empty registry. -/
def emptyRegistry : TplgPreProcessor := { class_list := [] }

/-- A class named Foo with no attributes, as first registered. -/
def sampleClassFoo : TplgClass :=
  { name := "Foo", num_args := 0, attribute_list := [] }

/-- A registry already holding the class Foo. -/
def sampleRegistry : TplgPreProcessor := { class_list := [sampleClassFoo] }

/-- A second definition of Foo whose body declares an attribute x. -/
def sampleRedefineCfg : SndConfig :=
  .compoundNode (some "Foo")
    [.compoundNode (some "DefineAttribute") [.compoundNode (some "x") []]]

/-- A freshly initialized attribute with the given name. -/
def attrNamed (nm : String) : TplgAttribute :=
  initAttribute nm TPLG_CLASS_PARAM_TYPE_ATTRIBUTE

/-- A freshly initialized attribute named dir. -/
def sampleDirAttr : TplgAttribute := attrNamed "dir"

/-- A class with two fresh attributes a and b. -/
def catClassAB : TplgClass :=
  { name := "X", num_args := 0, attribute_list := [attrNamed "a", attrNamed "b"] }

/-- A mandatory category child naming only attribute a. -/
def catNodeMandatoryA : SndConfig :=
  .compoundNode (some "mandatory") [.strNode none "a"]

/-- A category child with an unrecognized id naming attribute b. -/
def catNodeCustomB : SndConfig :=
  .compoundNode (some "custom") [.strNode none "b"]

/-- An immutable category child naming attribute b. -/
def catNodeImmutableB : SndConfig :=
  .compoundNode (some "immutable") [.strNode none "b"]

/-- catClassAB with the mandatory bit on a only. -/
def catClassAMasked : TplgClass :=
  { name := "X", num_args := 0,
    attribute_list :=
      [orMask TPLG_CLASS_ATTRIBUTE_MASK_MANDATORY (attrNamed "a"),
       attrNamed "b"] }

/-- catClassAB with the mandatory bit on both a and b. -/
def catClassABMasked : TplgClass :=
  { name := "X", num_args := 0,
    attribute_list :=
      [orMask TPLG_CLASS_ATTRIBUTE_MASK_MANDATORY (attrNamed "a"),
       orMask TPLG_CLASS_ATTRIBUTE_MASK_MANDATORY (attrNamed "b")] }

/-- Three attribute definition nodes named a, b, c with empty bodies. -/
def abcCfgChildren : List SndConfig :=
  [.compoundNode (some "a") [], .compoundNode (some "b") [],
   .compoundNode (some "c") []]

/-- The class Foo with three fresh attributes a, b, c. -/
def abcClassFoo : TplgClass :=
  { name := "Foo", num_args := 0,
    attribute_list := [attrNamed "a", attrNamed "b", attrNamed "c"] }

/-- An attribute whose constraint already holds the valid values capture
and playback (prepend order), both unresolved. -/
def tupleAttr : TplgAttribute :=
  { name := "dir", param_type := TPLG_CLASS_PARAM_TYPE_ATTRIBUTE,
    token_ref := "",
    constraint :=
      { mask := 0, min := INT_MIN, max := INT_MAX,
        value_list :=
          [{ id := "capture", string := "capture", value := -EINVAL },
           { id := "playback", string := "playback", value := -EINVAL }] } }

/-- An attribute definition node whose constraints hold only valid_values,
no min and no max. -/
def noBoundsAttrNode : SndConfig :=
  .compoundNode (some "words")
    [.compoundNode (some "constraints")
      [.compoundNode (some "valid_values")
        [.strNode (some "playback") "playback"]]]

/-- The class produced by compiling noBoundsAttrNode into Foo: the words
attribute keeps the full integer bounds. -/
def noBoundsResult : TplgClass :=
  { name := "Foo", num_args := 0,
    attribute_list :=
      [{ name := "words", param_type := TPLG_CLASS_PARAM_TYPE_ATTRIBUTE,
         token_ref := "",
         constraint :=
           { mask := 0, min := INT_MIN, max := INT_MAX,
             value_list :=
               [{ id := "playback", string := "playback",
                  value := -EINVAL }] } }] }

/-- A well-formed class definition node named A with an empty body. -/
def classNodeA : SndConfig := .compoundNode (some "A") []

/-- A class definition node named B whose attribute x carries a malformed
(string-valued) min constraint, so its build fails. -/
def classNodeB : SndConfig :=
  .compoundNode (some "B")
    [.compoundNode (some "DefineAttribute")
      [.compoundNode (some "x")
        [.compoundNode (some "constraints") [.strNode (some "min") "oops"]]]]

/-- The registry after defining A only. -/
def registryA : TplgPreProcessor :=
  { class_list := [{ name := "A", num_args := 0, attribute_list := [] }] }

/-- The registry after A and the partially built B (B registered with no
attributes since its only attribute failed to build). -/
def registryBA : TplgPreProcessor :=
  { class_list :=
      [{ name := "B", num_args := 0, attribute_list := [] },
       { name := "A", num_args := 0, attribute_list := [] }] }

/-- The tuple_values inner walk leaves a list without a matching id
untouched: no insertion, no modification. -/
lemma updateValueRef_no_match (i : String) (v : Int) (l : List TplgAttributeRef)
    (h : ∀ r ∈ l, r.id ≠ i) : updateValueRef i v l = l := by
  induction l with
  | nil => rfl
  | cons r rest ih =>
    have hr : ¬ r.id = i := h r (by simp)
    simp only [updateValueRef, if_neg hr]
    exact congrArg (List.cons r) (ih (fun x hx => h x (by simp [hx])))

/-- The tuple_values inner walk overwrites exactly the first matching ref
and leaves everything else in place. -/
lemma updateValueRef_first (i : String) (v : Int) (l1 : List TplgAttributeRef)
    (ref : TplgAttributeRef) (l2 : List TplgAttributeRef)
    (href : ref.id = i) (h : ∀ r ∈ l1, r.id ≠ i) :
    updateValueRef i v (l1 ++ ref :: l2) = l1 ++ { ref with value := v } :: l2 := by
  induction l1 with
  | nil => simp [updateValueRef, href]
  | cons r rest ih =>
    have hr : ¬ r.id = i := h r (by simp)
    simp only [List.cons_append, updateValueRef, if_neg hr]
    exact congrArg (List.cons r) (ih (fun x hx => h x (by simp [hx])))

/-- The valid_values walk touches only the value list: name and bounds of
the attribute are preserved. -/
lemma valid_values_loop_frame (ns : List SndConfig) (attr : TplgAttribute) :
    ((tplg_parse_constraint_valid_values_loop ns attr).2).name = attr.name ∧
    ((tplg_parse_constraint_valid_values_loop ns attr).2).constraint.min
      = attr.constraint.min ∧
    ((tplg_parse_constraint_valid_values_loop ns attr).2).constraint.max
      = attr.constraint.max := by
  induction ns generalizing attr with
  | nil => exact ⟨rfl, rfl, rfl⟩
  | cons n rest ih =>
    simp only [tplg_parse_constraint_valid_values_loop]
    cases hid : n.getId with
    | none => exact ⟨rfl, rfl, rfl⟩
    | some id =>
      cases hs : n.getString with
      | none => exact ⟨rfl, rfl, rfl⟩
      | some s => exact ih _

/-- The tuple_values walk touches only the value list: name and bounds of
the attribute are preserved. -/
lemma valid_value_ref_loop_frame (ns : List SndConfig) (attr : TplgAttribute) :
    ((tplg_parse_constraint_valid_value_ref_loop ns attr).2).name = attr.name ∧
    ((tplg_parse_constraint_valid_value_ref_loop ns attr).2).constraint.min
      = attr.constraint.min ∧
    ((tplg_parse_constraint_valid_value_ref_loop ns attr).2).constraint.max
      = attr.constraint.max := by
  induction ns generalizing attr with
  | nil => exact ⟨rfl, rfl, rfl⟩
  | cons n rest ih =>
    simp only [tplg_parse_constraint_valid_value_ref_loop]
    cases hid : n.getId with
    | none => exact ⟨rfl, rfl, rfl⟩
    | some id =>
      cases hv : tupleEntryValue n with
      | none => exact ⟨rfl, rfl, rfl⟩
      | some v => exact ih _

lemma constraints_loop_name (ns : List SndConfig) (attr : TplgAttribute) :
    ((tplg_parse_class_constraints_loop ns attr).2).name = attr.name := by
  induction ns generalizing attr with
  | nil => rfl
  | cons n rest ih =>
    simp only [tplg_parse_class_constraints_loop]
    split
    · exact ih _
    · split_ifs with hmin hmax hvv hlt htv hlt2
      · split
        · rfl
        · exact ih _
      · split
        · rfl
        · exact ih _
      · exact (valid_values_loop_frame n.children attr).1
      · exact (ih _).trans (valid_values_loop_frame n.children attr).1
      · exact (valid_value_ref_loop_frame n.children attr).1
      · exact (ih _).trans (valid_value_ref_loop_frame n.children attr).1
      · exact ih _

/-- When none of the children is named min or max, the constraints walk
preserves the bounds. -/
lemma constraints_loop_minmax (ns : List SndConfig) (attr : TplgAttribute)
    (h : ∀ n ∈ ns, n.getId ≠ some "min" ∧ n.getId ≠ some "max") :
    ((tplg_parse_class_constraints_loop ns attr).2).constraint.min
      = attr.constraint.min ∧
    ((tplg_parse_class_constraints_loop ns attr).2).constraint.max
      = attr.constraint.max := by
  induction ns generalizing attr with
  | nil => exact ⟨rfl, rfl⟩
  | cons n rest ih =>
    have hrest : ∀ m ∈ rest, m.getId ≠ some "min" ∧ m.getId ≠ some "max" :=
      fun m hm => h m (by simp [hm])
    simp only [tplg_parse_class_constraints_loop]
    split
    · exact ih _ hrest
    · rename_i id hid
      split_ifs with hmin hmax hvv hlt htv hlt2
      · exact absurd (by rw [hmin] at hid; exact hid) (h n (by simp)).1
      · exact absurd (by rw [hmax] at hid; exact hid) (h n (by simp)).2
      · exact (valid_values_loop_frame n.children attr).2
      · rcases ih _ hrest with ⟨h1, h2⟩
        rcases (valid_values_loop_frame n.children attr).2 with ⟨g1, g2⟩
        exact ⟨h1.trans g1, h2.trans g2⟩
      · exact (valid_value_ref_loop_frame n.children attr).2
      · rcases ih _ hrest with ⟨h1, h2⟩
        rcases (valid_value_ref_loop_frame n.children attr).2 with ⟨g1, g2⟩
        exact ⟨h1.trans g1, h2.trans g2⟩
      · exact ih _ hrest


/-- The attribute body walk never renames the attribute. -/
lemma attribute_loop_name (ns : List SndConfig) (attr : TplgAttribute) :
    ((tplg_parse_class_attribute_loop ns attr).2).name = attr.name := by
  induction ns generalizing attr with
  | nil => rfl
  | cons n rest ih =>
    simp only [tplg_parse_class_attribute_loop]
    split
    · exact ih _
    · split_ifs with hc hlt ht
      · exact constraints_loop_name n.children attr
      · exact (ih _).trans (constraints_loop_name n.children attr)
      · split
        · rfl
        · exact ih _
      · exact ih _

/-- When no constraints child of the attribute body holds a min or max
grandchild, the attribute body walk preserves the bounds. -/
lemma attribute_loop_minmax (ns : List SndConfig) (attr : TplgAttribute)
    (h : ∀ c ∈ ns, c.getId = some "constraints" →
      ∀ g ∈ c.children, g.getId ≠ some "min" ∧ g.getId ≠ some "max") :
    ((tplg_parse_class_attribute_loop ns attr).2).constraint.min
      = attr.constraint.min ∧
    ((tplg_parse_class_attribute_loop ns attr).2).constraint.max
      = attr.constraint.max := by
  induction ns generalizing attr with
  | nil => exact ⟨rfl, rfl⟩
  | cons n rest ih =>
    have hrest : ∀ c ∈ rest, c.getId = some "constraints" →
        ∀ g ∈ c.children, g.getId ≠ some "min" ∧ g.getId ≠ some "max" :=
      fun c hc => h c (by simp [hc])
    simp only [tplg_parse_class_attribute_loop]
    split
    · exact ih _ hrest
    · rename_i id hid
      split_ifs with hc hlt ht
      · exact constraints_loop_minmax n.children attr
          (h n (by simp) (by rw [hid, hc]))
      · rcases ih _ hrest with ⟨h1, h2⟩
        rcases constraints_loop_minmax n.children attr
            (h n (by simp) (by rw [hid, hc])) with ⟨g1, g2⟩
        exact ⟨h1.trans g1, h2.trans g2⟩
      · split
        · exact ⟨rfl, rfl⟩
        · exact ih _ hrest
      · exact ih _ hrest

/-- The class attribute walk never renames the class. -/
lemma attributes_loop_clsname (type : Nat) (ns : List SndConfig)
    (cls : TplgClass) :
    ((tplg_parse_class_attributes_loop type ns cls).2).name = cls.name := by
  induction ns generalizing cls with
  | nil => rfl
  | cons n rest ih =>
    simp only [tplg_parse_class_attributes_loop]
    split
    · exact ih _
    · split_ifs <;> first | rfl | exact ih _

/-- A successful class attribute walk appends exactly the attributes of the
children that carry an id, named by their (bounded) ids, in declaration
order. -/
lemma attributes_loop_names (type : Nat) (ns : List SndConfig)
    (cls cls' : TplgClass)
    (h : tplg_parse_class_attributes_loop type ns cls = (0, cls')) :
    cls'.attribute_list.map TplgAttribute.name
      = cls.attribute_list.map TplgAttribute.name
        ++ (ns.filterMap SndConfig.getId).map sndStrlcpy := by
  induction ns generalizing cls with
  | nil =>
    simp only [tplg_parse_class_attributes_loop, Prod.mk.injEq] at h
    rw [← h.2]
    simp
  | cons n rest ih =>
    simp only [tplg_parse_class_attributes_loop] at h
    split at h
    · rename_i hid
      rw [ih _ h]
      simp [List.filterMap_cons, hid]
    · rename_i id hid
      have hname : (tplg_parse_class_attribute n (initAttribute id type)).2.name
          = sndStrlcpy id :=
        attribute_loop_name (SndConfig.children n) (initAttribute id type)
      split_ifs at h with hlt harg
      · rw [Prod.mk.injEq] at h
        exact absurd (h.1 ▸ hlt) (lt_irrefl 0)
      · rw [Prod.mk.injEq] at h
        exact absurd (h.1 ▸ hlt) (lt_irrefl 0)
      · rw [ih _ h]
        simp [List.filterMap_cons, hid, hname, List.append_assoc]
      · rw [ih _ h]
        simp [List.filterMap_cons, hid, hname, List.append_assoc]

/-- The category application walk never renames the class and never touches
its argument count. -/
lemma category_loop_frame (cat : Nat) (ns : List SndConfig) (cls : TplgClass) :
    ((tplg_parse_class_attribute_category_loop cat ns cls).2).name = cls.name ∧
    ((tplg_parse_class_attribute_category_loop cat ns cls).2).num_args
      = cls.num_args := by
  induction ns generalizing cls with
  | nil => exact ⟨rfl, rfl⟩
  | cons n rest ih =>
    simp only [tplg_parse_class_attribute_category_loop]
    split
    · exact ⟨rfl, rfl⟩
    · split
      · exact ih _
      · exact ih _

/-- A normal return of the categories walk never renames the class. -/
lemma categories_loop_name (ns : List SndConfig) (cat : Nat)
    (cls : TplgClass) (r : Int) (cls' : TplgClass)
    (h : tplg_parse_class_attribute_categories_loop ns cat cls = some (r, cls')) :
    cls'.name = cls.name := by
  induction ns generalizing cat cls with
  | nil =>
    simp only [tplg_parse_class_attribute_categories_loop,
      Option.some.injEq, Prod.mk.injEq] at h
    rw [← h.2]
  | cons n rest ih =>
    simp only [tplg_parse_class_attribute_categories_loop] at h
    split at h
    · simp only [Option.some.injEq, Prod.mk.injEq] at h
      rw [← h.2]
    · rename_i id hid
      split_ifs at h with hu hz hlt
      · split at h
        · exact absurd h (by simp)
        · split at h
          · exact ih _ _ h
          · exact (ih _ _ h).trans rfl
      · exact ih _ _ h
      · simp only [Option.some.injEq, Prod.mk.injEq] at h
        rw [← h.2]
        exact (category_loop_frame _ n.children cls).1
      · exact (ih _ _ h).trans (category_loop_frame _ n.children cls).1

/-- A normal return of the class body walk never renames the class. -/
lemma define_class_loop_name (ns : List SndConfig) (cls : TplgClass)
    (r : Int) (cls' : TplgClass)
    (h : tplg_define_class_loop ns cls = some (r, cls')) :
    cls'.name = cls.name := by
  induction ns generalizing cls with
  | nil =>
    simp only [tplg_define_class_loop, Option.some.injEq, Prod.mk.injEq] at h
    rw [← h.2]
  | cons n rest ih =>
    simp only [tplg_define_class_loop] at h
    split at h
    · exact ih _ h
    · rename_i id hid
      split_ifs at h with hda hlt1 hdA hlt2 hat
      · simp only [Option.some.injEq, Prod.mk.injEq] at h
        rw [← h.2]
        exact attributes_loop_clsname _ n.children cls
      · exact (ih _ h).trans (attributes_loop_clsname _ n.children cls)
      · simp only [Option.some.injEq, Prod.mk.injEq] at h
        rw [← h.2]
        exact attributes_loop_clsname _ n.children cls
      · exact (ih _ h).trans (attributes_loop_clsname _ n.children cls)
      · split at h
        · exact absurd h (by simp)
        · rename_i p hcat
          split_ifs at h with hlt
          · simp only [Option.some.injEq, Prod.mk.injEq] at h
            rw [← h.2]
            exact categories_loop_name n.children 0 cls _ _ hcat
          · exact (ih _ h).trans (categories_loop_name n.children 0 cls _ _ hcat)
      · exact ih _ h

/-- A successful prefix of the top-level walk can be split off: the walk of
pre followed by xs continues from the state pre produced. -/
lemma classes_loop_resume (pre : List SndConfig) (pp pp1 : TplgPreProcessor)
    (h : tplg_define_classes_loop pre pp = some (0, pp1))
    (xs : List SndConfig) :
    tplg_define_classes_loop (pre ++ xs) pp
      = tplg_define_classes_loop xs pp1 := by
  induction pre generalizing pp with
  | nil =>
    simp only [tplg_define_classes_loop, Option.some.injEq, Prod.mk.injEq] at h
    rw [List.nil_append, h.2]
  | cons n rest ih =>
    simp only [List.cons_append, tplg_define_classes_loop] at h ⊢
    split at h
    · exact ih _ h
    · cases hd : tplg_define_class pp n SND_TPLG_CLASS_TYPE_BASE with
      | none =>
        rw [hd] at h
        simp at h
      | some p =>
        rcases p with ⟨ret, pp'⟩
        rw [hd] at h
        have h' : (if ret < 0 then some (ret, pp')
            else tplg_define_classes_loop rest pp') = some (0, pp1) := h
        show (if ret < 0 then some (ret, pp')
            else tplg_define_classes_loop (rest ++ xs) pp')
          = tplg_define_classes_loop xs pp1
        by_cases hlt : ret < 0
        · rw [if_pos hlt] at h'
          simp only [Option.some.injEq, Prod.mk.injEq] at h'
          exact absurd (h'.1 ▸ hlt) (lt_irrefl 0)
        · rw [if_neg hlt] at h'
          rw [if_neg hlt]
          exact ih _ h'

/-- C1: For every registry and every class-definition node whose name is
already registered, tplg_define_class returns success with the registry
unchanged: it holds exactly the first definition of the name and nothing of
the second definition's body is observable. -/
theorem C1_redefinition_skipped (pp : TplgPreProcessor) (cfg : SndConfig)
    (t : Nat) (id : String) (c : TplgClass)
    (hid : cfg.getId = some id)
    (hfound : tplg_class_lookup pp id = some c) :
    tplg_define_class pp cfg t = some (0, pp) := by
  simp only [tplg_define_class, hid, hfound]

/-- C1 witness: redefining Foo with a body declaring an attribute returns 0
and leaves the registry exactly as it was. -/
theorem C1_redefinition_skipped_witness :
    sampleRedefineCfg.getId = some "Foo" ∧
    tplg_class_lookup sampleRegistry "Foo" = some sampleClassFoo ∧
    tplg_define_class sampleRegistry sampleRedefineCfg
        SND_TPLG_CLASS_TYPE_BASE = some (0, sampleRegistry) :=
  ⟨rfl, by decide,
    C1_redefinition_skipped sampleRegistry sampleRedefineCfg
      SND_TPLG_CLASS_TYPE_BASE "Foo" sampleClassFoo rfl (by decide)⟩

/-- C3 counterexample: the claim fails on the code. An integer-typed
valid_values grandchild makes the build fail with -EINVAL instead of
storing the integer, and a digit-leading string is stored with the
unresolved value -EINVAL instead of being parsed as a decimal. -/
theorem C3_counterexample :
    tplg_parse_constraint_valid_values_loop
        [SndConfig.intNode (some "three") 3] sampleDirAttr
      = (-EINVAL, sampleDirAttr) ∧
    (-EINVAL : Int) < 0 ∧
    (tplg_parse_constraint_valid_values_loop
        [SndConfig.strNode (some "five") "5"] sampleDirAttr).2.constraint.value_list
      = [{ id := "five", string := "5", value := -EINVAL }] := by decide

/-- C3 (amended): for every valid_values grandchild with a readable id,
a string scalar (digit-leading or not) is stored as a ValueRef with that
string and an unresolved value and parsing continues; a non-string scalar
fails the build with -EINVAL. -/
theorem C3_amended_valid_values (n : SndConfig) (rest : List SndConfig)
    (attr : TplgAttribute) (id : String) (hid : n.getId = some id) :
    (∀ s, n.getString = some s →
      tplg_parse_constraint_valid_values_loop (n :: rest) attr =
        tplg_parse_constraint_valid_values_loop rest
          { attr with constraint :=
            { attr.constraint with value_list :=
                { id := id, string := s, value := -EINVAL }
                  :: attr.constraint.value_list } }) ∧
    (n.getString = none →
      tplg_parse_constraint_valid_values_loop (n :: rest) attr
        = (-EINVAL, attr)) := by
  constructor
  · intro s hs
    simp only [tplg_parse_constraint_valid_values_loop, hid, hs]
  · intro hs
    simp only [tplg_parse_constraint_valid_values_loop, hid, hs]

/-- C3 amended witness: a string-valued entry is prepended unresolved. -/
theorem C3_amended_valid_values_witness :
    (SndConfig.strNode (some "playback") "playback").getId = some "playback" ∧
    tplg_parse_constraint_valid_values_loop
        [SndConfig.strNode (some "playback") "playback"] sampleDirAttr =
      tplg_parse_constraint_valid_values_loop []
        { sampleDirAttr with constraint :=
          { sampleDirAttr.constraint with value_list :=
              { id := "playback", string := "playback", value := -EINVAL }
                :: sampleDirAttr.constraint.value_list } } :=
  ⟨rfl,
    (C3_amended_valid_values (SndConfig.strNode (some "playback") "playback")
      [] sampleDirAttr "playback" rfl).1 "playback" rfl⟩

/-- C4: attributes are appended to the class in declaration order, and
valid values are prepended, so three declared valid values come out in
reversed order. -/
theorem C4_order_preservation (i1 i2 i3 s1 s2 s3 : String)
    (attr : TplgAttribute) (type : Nat) (ns : List SndConfig)
    (cls cls' : TplgClass)
    (h : tplg_parse_class_attributes_loop type ns cls = (0, cls')) :
    tplg_parse_constraint_valid_values_loop
        [SndConfig.strNode (some i1) s1, SndConfig.strNode (some i2) s2,
         SndConfig.strNode (some i3) s3] attr
      = (0, { attr with constraint :=
          { attr.constraint with value_list :=
              { id := i3, string := s3, value := -EINVAL } ::
              { id := i2, string := s2, value := -EINVAL } ::
              { id := i1, string := s1, value := -EINVAL } ::
              attr.constraint.value_list } }) ∧
    cls'.attribute_list.map TplgAttribute.name
      = cls.attribute_list.map TplgAttribute.name
        ++ (ns.filterMap SndConfig.getId).map sndStrlcpy :=
  ⟨rfl, attributes_loop_names type ns cls cls' h⟩

/-- C4 witness: three attribute nodes a, b, c come out appended in order,
and three valid values come out reversed. -/
theorem C4_order_preservation_witness :
    tplg_parse_class_attributes_loop TPLG_CLASS_PARAM_TYPE_ATTRIBUTE
        abcCfgChildren sampleClassFoo = (0, abcClassFoo) ∧
    tplg_parse_constraint_valid_values_loop
        [SndConfig.strNode (some "v1") "x", SndConfig.strNode (some "v2") "y",
         SndConfig.strNode (some "v3") "z"] sampleDirAttr
      = (0, { sampleDirAttr with constraint :=
          { sampleDirAttr.constraint with value_list :=
              { id := "v3", string := "z", value := -EINVAL } ::
              { id := "v2", string := "y", value := -EINVAL } ::
              { id := "v1", string := "x", value := -EINVAL } ::
              sampleDirAttr.constraint.value_list } }) ∧
    abcClassFoo.attribute_list.map TplgAttribute.name
      = sampleClassFoo.attribute_list.map TplgAttribute.name
        ++ (abcCfgChildren.filterMap SndConfig.getId).map sndStrlcpy :=
  ⟨by decide,
    (C4_order_preservation "v1" "v2" "v3" "x" "y" "z" sampleDirAttr
      TPLG_CLASS_PARAM_TYPE_ATTRIBUTE abcCfgChildren sampleClassFoo
      abcClassFoo (by decide)).1,
    (C4_order_preservation "v1" "v2" "v3" "x" "y" "z" sampleDirAttr
      TPLG_CLASS_PARAM_TYPE_ATTRIBUTE abcCfgChildren sampleClassFoo
      abcClassFoo (by decide)).2⟩

/-- C5: a tuple_values entry with a readable id and a well-formed value
(integer, or digit-leading string) overwrites the value of the first
ValueRef with the same id, leaving all other refs in place, and succeeds;
when no ref has that id the entry is a no-op: no insertion, no change, no
error. -/
theorem C5_tuple_values_resolution (n : SndConfig) (attr : TplgAttribute)
    (i : String) (v : Int)
    (hid : n.getId = some i) (hv : tupleEntryValue n = some v) :
    tplg_parse_constraint_valid_value_ref_loop [n] attr
      = (0, { attr with constraint :=
          { attr.constraint with
            value_list := updateValueRef i v attr.constraint.value_list } }) ∧
    ((∀ r ∈ attr.constraint.value_list, r.id ≠ i) →
      updateValueRef i v attr.constraint.value_list
        = attr.constraint.value_list) ∧
    (∀ l1 ref l2, attr.constraint.value_list = l1 ++ ref :: l2 →
      ref.id = i → (∀ r ∈ l1, r.id ≠ i) →
      updateValueRef i v attr.constraint.value_list
        = l1 ++ { ref with value := v } :: l2) := by
  refine ⟨?_, ?_, ?_⟩
  · simp only [tplg_parse_constraint_valid_value_ref_loop, hid, hv]
  · exact fun h => updateValueRef_no_match i v _ h
  · intro l1 ref l2 hsplit href hfirst
    rw [hsplit]
    exact updateValueRef_first i v l1 ref l2 href hfirst

/-- C5 witness: resolving playback to 0 against a two-entry list updates
exactly the playback ref; an unknown id leaves the list untouched. -/
theorem C5_tuple_values_resolution_witness :
    (SndConfig.intNode (some "playback") 0).getId = some "playback" ∧
    tupleEntryValue (SndConfig.intNode (some "playback") 0) = some 0 ∧
    tplg_parse_constraint_valid_value_ref_loop
        [SndConfig.intNode (some "playback") 0] tupleAttr
      = (0, { tupleAttr with constraint :=
          { tupleAttr.constraint with
            value_list :=
              updateValueRef "playback" 0 tupleAttr.constraint.value_list } }) :=
  ⟨rfl, rfl,
    (C5_tuple_values_resolution (SndConfig.intNode (some "playback") 0)
      tupleAttr "playback" 0 rfl rfl).1⟩

/-- C2 counterexample: the claim fails on the code. After a mandatory
child, a following child with the unrecognized id custom is not ignored:
the stale pending category is applied to the attribute b it names, so the
final schema differs from the one without the custom child and b carries a
mask bit caused by the unrecognized child. -/
theorem C2_counterexample :
    tplg_parse_class_attribute_categories_loop [catNodeMandatoryA] 0 catClassAB
      = some (0, catClassAMasked) ∧
    tplg_parse_class_attribute_categories_loop
        [catNodeMandatoryA, catNodeCustomB] 0 catClassAB
      = some (0, catClassABMasked) ∧
    catClassABMasked ≠ catClassAMasked := by decide

/-- C2 (amended): a child with an unrecognized id leaves the pending
category unchanged: when no bulk category child preceded it (pending
category 0) it is ignored, otherwise the pending category is applied to
the attribute names it lists; a recognized bulk child such as mandatory
selects and immediately applies its own category regardless of the
pending one. -/
theorem C2_amended_category_state (n m : SndConfig) (uid bid : String)
    (bit : Nat) (rest : List SndConfig) (category : Nat) (cls : TplgClass)
    (hid : n.getId = some uid)
    (h1 : uid ≠ "mandatory") (h2 : uid ≠ "immutable")
    (h3 : uid ≠ "deprecated") (h4 : uid ≠ "automatic") (h5 : uid ≠ "unique")
    (hm : m.getId = some bid)
    (hb : (bid, bit) = ("mandatory", TPLG_CLASS_ATTRIBUTE_MASK_MANDATORY) ∨
      (bid, bit) = ("immutable", TPLG_CLASS_ATTRIBUTE_MASK_IMMUTABLE) ∨
      (bid, bit) = ("deprecated", TPLG_CLASS_ATTRIBUTE_MASK_DEPRECATED) ∨
      (bid, bit) = ("automatic", TPLG_CLASS_ATTRIBUTE_MASK_AUTOMATIC)) :
    (category = 0 →
      tplg_parse_class_attribute_categories_loop (n :: rest) category cls =
        tplg_parse_class_attribute_categories_loop rest category cls) ∧
    (category ≠ 0 →
      tplg_parse_class_attribute_categories_loop (n :: rest) category cls =
        (if (tplg_parse_class_attribute_category n cls category).1 < 0 then
          some (tplg_parse_class_attribute_category n cls category)
        else
          tplg_parse_class_attribute_categories_loop rest category
            (tplg_parse_class_attribute_category n cls category).2)) ∧
    (tplg_parse_class_attribute_categories_loop (m :: rest) category cls =
      (if (tplg_parse_class_attribute_category m cls bit).1 < 0 then
        some (tplg_parse_class_attribute_category m cls bit)
      else
        tplg_parse_class_attribute_categories_loop rest bit
          (tplg_parse_class_attribute_category m cls bit).2)) := by
  refine ⟨?_, ?_, ?_⟩
  · intro hz
    subst hz
    simp [tplg_parse_class_attribute_categories_loop, hid, categoryOfId,
      h1, h2, h3, h4, h5]
  · intro hnz
    simp [tplg_parse_class_attribute_categories_loop, hid, categoryOfId,
      h1, h2, h3, h4, h5, hnz]
  · rcases hb with hb | hb | hb | hb <;>
      rw [Prod.mk.injEq] at hb <;>
      rcases hb with ⟨hbid, hbit⟩ <;>
      subst hbid <;> subst hbit <;>
      simp [tplg_parse_class_attribute_categories_loop, hm, categoryOfId,
        TPLG_CLASS_ATTRIBUTE_MASK_MANDATORY,
        TPLG_CLASS_ATTRIBUTE_MASK_IMMUTABLE,
        TPLG_CLASS_ATTRIBUTE_MASK_DEPRECATED,
        TPLG_CLASS_ATTRIBUTE_MASK_AUTOMATIC]

/-- C2 amended witness: with pending category 1 the unrecognized child is
applied with category 1, and an immutable child selects and applies its own
bit despite the pending category 1. -/
theorem C2_amended_category_state_witness :
    catNodeCustomB.getId = some "custom" ∧
    catNodeImmutableB.getId = some "immutable" ∧
    tplg_parse_class_attribute_categories_loop [catNodeCustomB] 1 catClassAB =
      (if (tplg_parse_class_attribute_category catNodeCustomB catClassAB 1).1
          < 0 then
        some (tplg_parse_class_attribute_category catNodeCustomB catClassAB 1)
      else
        tplg_parse_class_attribute_categories_loop [] 1
          (tplg_parse_class_attribute_category catNodeCustomB catClassAB 1).2) ∧
    tplg_parse_class_attribute_categories_loop [catNodeImmutableB] 1
        catClassAB =
      (if (tplg_parse_class_attribute_category catNodeImmutableB catClassAB
            TPLG_CLASS_ATTRIBUTE_MASK_IMMUTABLE).1 < 0 then
        some (tplg_parse_class_attribute_category catNodeImmutableB catClassAB
          TPLG_CLASS_ATTRIBUTE_MASK_IMMUTABLE)
      else
        tplg_parse_class_attribute_categories_loop []
          TPLG_CLASS_ATTRIBUTE_MASK_IMMUTABLE
          (tplg_parse_class_attribute_category catNodeImmutableB catClassAB
            TPLG_CLASS_ATTRIBUTE_MASK_IMMUTABLE).2) :=
  ⟨rfl, rfl,
    (C2_amended_category_state catNodeCustomB catNodeImmutableB "custom"
      "immutable" TPLG_CLASS_ATTRIBUTE_MASK_IMMUTABLE [] 1 catClassAB rfl
      (by decide) (by decide) (by decide) (by decide) (by decide) rfl
      (Or.inr (Or.inl rfl))).2.1 (by decide),
    (C2_amended_category_state catNodeCustomB catNodeImmutableB "custom"
      "immutable" TPLG_CLASS_ATTRIBUTE_MASK_IMMUTABLE [] 1 catClassAB rfl
      (by decide) (by decide) (by decide) (by decide) (by decide) rfl
      (Or.inr (Or.inl rfl))).2.2⟩

/-- C7: for a class with attributes a, b, c (distinct names), a mandatory
category node naming a, c and an unknown name ORs the mandatory bit into
exactly a and c, leaves b untouched, and silently skips the unmatched
name. -/
theorem C7_mandatory_application (a b c : TplgAttribute) (cls : TplgClass)
    (i1 i2 i3 : Option String) (other : String)
    (hal : cls.attribute_list = [a, b, c])
    (hab : a.name ≠ b.name) (hac : a.name ≠ c.name) (hbc : b.name ≠ c.name)
    (ho1 : a.name ≠ other) (ho2 : b.name ≠ other) (ho3 : c.name ≠ other) :
    tplg_parse_class_attribute_category_loop
        TPLG_CLASS_ATTRIBUTE_MASK_MANDATORY
        [SndConfig.strNode i1 a.name, SndConfig.strNode i2 c.name,
         SndConfig.strNode i3 other] cls
      = (0, { cls with attribute_list :=
          [orMask TPLG_CLASS_ATTRIBUTE_MASK_MANDATORY a, b,
           orMask TPLG_CLASS_ATTRIBUTE_MASK_MANDATORY c] }) := by
  simp [tplg_parse_class_attribute_category_loop, SndConfig.getString,
    tplg_get_attribute_by_name, updateFirstAttr, orMask, hal,
    hab, hac, hbc, ho1, ho2, ho3]

/-- C7 witness: concrete class a, b, c with mandatory naming a, c, zzz. -/
theorem C7_mandatory_application_witness :
    abcClassFoo.attribute_list
      = [attrNamed "a", attrNamed "b", attrNamed "c"] ∧
    tplg_parse_class_attribute_category_loop
        TPLG_CLASS_ATTRIBUTE_MASK_MANDATORY
        [SndConfig.strNode none (attrNamed "a").name,
         SndConfig.strNode none (attrNamed "c").name,
         SndConfig.strNode none "zzz"] abcClassFoo
      = (0, { abcClassFoo with attribute_list :=
          [orMask TPLG_CLASS_ATTRIBUTE_MASK_MANDATORY (attrNamed "a"),
           attrNamed "b",
           orMask TPLG_CLASS_ATTRIBUTE_MASK_MANDATORY (attrNamed "c")] }) :=
  ⟨rfl,
    C7_mandatory_application (attrNamed "a") (attrNamed "b") (attrNamed "c")
      abcClassFoo none none none "zzz" rfl (by decide) (by decide)
      (by decide) (by decide) (by decide) (by decide)⟩

/-- C8: an attribute whose definition node has no constraints.min and no
constraints.max grandchild compiles (when the walk succeeds) to bounds
min = INT_MIN and max = INT_MAX. -/
theorem C8_default_bounds (n : SndConfig) (id : String) (type : Nat)
    (cls cls' : TplgClass)
    (hid : n.getId = some id)
    (hnomm : ∀ ch ∈ n.children, ch.getId = some "constraints" →
      ∀ g ∈ ch.children, g.getId ≠ some "min" ∧ g.getId ≠ some "max")
    (h : tplg_parse_class_attributes_loop type [n] cls = (0, cls')) :
    ∃ attr, cls'.attribute_list = cls.attribute_list ++ [attr] ∧
      attr.constraint.min = INT_MIN ∧ attr.constraint.max = INT_MAX := by
  simp only [tplg_parse_class_attributes_loop, hid] at h
  split_ifs at h with hlt harg
  · rw [Prod.mk.injEq] at h
    exact absurd (h.1 ▸ hlt) (lt_irrefl 0)
  · rw [Prod.mk.injEq] at h
    exact absurd (h.1 ▸ hlt) (lt_irrefl 0)
  · rw [Prod.mk.injEq] at h
    refine ⟨(tplg_parse_class_attribute n (initAttribute id type)).2,
      ?_, ?_, ?_⟩
    · rw [← h.2]
    · exact (attribute_loop_minmax n.children (initAttribute id type) hnomm).1
    · exact (attribute_loop_minmax n.children (initAttribute id type) hnomm).2
  · rw [Prod.mk.injEq] at h
    refine ⟨(tplg_parse_class_attribute n (initAttribute id type)).2,
      ?_, ?_, ?_⟩
    · rw [← h.2]
    · exact (attribute_loop_minmax n.children (initAttribute id type) hnomm).1
    · exact (attribute_loop_minmax n.children (initAttribute id type) hnomm).2

/-- C8 witness: the words attribute with only a valid_values constraint
keeps the full integer bounds. -/
theorem C8_default_bounds_witness :
    noBoundsAttrNode.getId = some "words" ∧
    tplg_parse_class_attributes_loop TPLG_CLASS_PARAM_TYPE_ATTRIBUTE
        [noBoundsAttrNode] sampleClassFoo = (0, noBoundsResult) ∧
    (∃ attr, noBoundsResult.attribute_list
        = sampleClassFoo.attribute_list ++ [attr] ∧
      attr.constraint.min = INT_MIN ∧ attr.constraint.max = INT_MAX) :=
  ⟨rfl, by decide,
    C8_default_bounds noBoundsAttrNode "words" TPLG_CLASS_PARAM_TYPE_ATTRIBUTE
      sampleClassFoo noBoundsResult rfl (by decide) (by decide)⟩

/-- Every path of the categories walk except the failed assert in the
unique branch produces a normal return: when every unique child holds a
string, the walk cannot abort. -/
lemma categories_loop_isSome (ns : List SndConfig) :
    ∀ (category : Nat) (cls : TplgClass),
      (∀ n ∈ ns, n.getId = some "unique" → (n.getString).isSome) →
      (tplg_parse_class_attribute_categories_loop ns category cls).isSome := by
  induction ns with
  | nil =>
    intro category cls _
    simp [tplg_parse_class_attribute_categories_loop]
  | cons n rest ih =>
    intro category cls h
    have hrest : ∀ m ∈ rest, m.getId = some "unique" → (m.getString).isSome :=
      fun m hm => h m (by simp [hm])
    simp only [tplg_parse_class_attribute_categories_loop]
    split
    · simp
    · rename_i id hid
      split_ifs with hu hz hlt
      · have hs := h n (by simp) (by rw [hid, hu])
        split
        · rename_i hg
          rw [hg] at hs
          simp at hs
        · split
          · exact ih _ _ hrest
          · exact ih _ _ hrest
      · exact ih _ _ hrest
      · simp
      · exact ih _ _ hrest

/-- Inserting a child whose id cannot be read anywhere in the top-level
walk changes nothing. -/
lemma classes_loop_skip (noid : SndConfig) (hn : noid.getId = none) :
    ∀ pre post pp, tplg_define_classes_loop (pre ++ noid :: post) pp
      = tplg_define_classes_loop (pre ++ post) pp := by
  intro pre
  induction pre with
  | nil =>
    intro post pp
    simp [tplg_define_classes_loop, hn]
  | cons x xs ih =>
    intro post pp
    simp only [List.cons_append, tplg_define_classes_loop]
    cases hx : x.getId with
    | none => exact ih post pp
    | some id =>
      cases hd : tplg_define_class pp x SND_TPLG_CLASS_TYPE_BASE with
      | none => rfl
      | some p =>
        rcases p with ⟨ret, pp'⟩
        show (if ret < 0 then some (ret, pp')
            else tplg_define_classes_loop (xs ++ noid :: post) pp')
          = (if ret < 0 then some (ret, pp')
            else tplg_define_classes_loop (xs ++ post) pp')
        split_ifs with hlt
        · rfl
        · exact ih post pp'

/-- Inserting a child whose id cannot be read anywhere in a class body
walk changes nothing. -/
lemma define_class_loop_skip (noid : SndConfig) (hn : noid.getId = none) :
    ∀ pre post cls, tplg_define_class_loop (pre ++ noid :: post) cls
      = tplg_define_class_loop (pre ++ post) cls := by
  intro pre
  induction pre with
  | nil =>
    intro post cls
    simp [tplg_define_class_loop, hn]
  | cons x xs ih =>
    intro post cls
    simp only [List.cons_append, tplg_define_class_loop]
    split
    · exact ih post cls
    · split_ifs with hda hlt hdA hlt2 hat
      · rfl
      · exact ih post _
      · rfl
      · exact ih post _
      · split
        · rfl
        · split_ifs with hlt3
          · rfl
          · exact ih post _
      · exact ih post _

/-- Inserting a child whose id cannot be read anywhere in the attribute
definitions walk changes nothing. -/
lemma attributes_loop_skip (noid : SndConfig) (hn : noid.getId = none) :
    ∀ type pre post cls,
      tplg_parse_class_attributes_loop type (pre ++ noid :: post) cls
        = tplg_parse_class_attributes_loop type (pre ++ post) cls := by
  intro type pre
  induction pre with
  | nil =>
    intro post cls
    simp [tplg_parse_class_attributes_loop, hn]
  | cons x xs ih =>
    intro post cls
    simp only [List.cons_append, tplg_parse_class_attributes_loop]
    split
    · exact ih post cls
    · split_ifs with hlt harg
      · rfl
      · rfl
      · exact ih post _
      · exact ih post _

/-- Inserting a child whose id cannot be read anywhere in the constraints
walk changes nothing. -/
lemma constraints_loop_skip (noid : SndConfig) (hn : noid.getId = none) :
    ∀ pre post attr,
      tplg_parse_class_constraints_loop (pre ++ noid :: post) attr
        = tplg_parse_class_constraints_loop (pre ++ post) attr := by
  intro pre
  induction pre with
  | nil =>
    intro post attr
    simp [tplg_parse_class_constraints_loop, hn]
  | cons x xs ih =>
    intro post attr
    simp only [List.cons_append, tplg_parse_class_constraints_loop]
    split
    · exact ih post attr
    · split_ifs with hmin hmax hvv hlt htv hlt2
      · split
        · rfl
        · exact ih post _
      · split
        · rfl
        · exact ih post _
      · rfl
      · exact ih post _
      · rfl
      · exact ih post _
      · exact ih post _

/-- C6: a failing class definition aborts the whole top-level walk with
its error: preceding classes stay registered, later children are not
processed, and the failing class itself was registered (at the head, with
its original name) before its body was parsed. -/
theorem C6_error_propagation (pre post : List SndConfig) (bad : SndConfig)
    (pp pp1 pp2 : TplgPreProcessor) (e : Int) (bid : String)
    (hpre : tplg_define_classes_loop pre pp = some (0, pp1))
    (hbid : bad.getId = some bid)
    (hnew : tplg_class_lookup pp1 bid = none)
    (hbad : tplg_define_class pp1 bad SND_TPLG_CLASS_TYPE_BASE = some (e, pp2))
    (he : e < 0) :
    tplg_define_classes_loop (pre ++ bad :: post) pp = some (e, pp2) ∧
    ∃ cls, pp2.class_list = cls :: pp1.class_list ∧
      cls.name = sndStrlcpy bid := by
  constructor
  · rw [classes_loop_resume pre pp pp1 hpre]
    simp [tplg_define_classes_loop, hbid, hbad, he]
  · simp only [tplg_define_class, hbid, hnew] at hbad
    cases hcl : tplg_define_class_loop bad.children
        { name := sndStrlcpy bid, num_args := 0, attribute_list := [] } with
    | none =>
      rw [hcl] at hbad
      simp at hbad
    | some p =>
      rcases p with ⟨ret, cls'⟩
      rw [hcl] at hbad
      simp only [Option.some.injEq, Prod.mk.injEq] at hbad
      refine ⟨cls', ?_, ?_⟩
      · rw [← hbad.2]
      · exact define_class_loop_name bad.children _ _ _ hcl

/-- C6 witness: with A defined first, the malformed class B aborts the
walk with -EINVAL; A stays registered, the trailing child is never
processed, and the partial B is registered at the head. -/
theorem C6_error_propagation_witness :
    tplg_define_classes_loop [classNodeA] emptyRegistry
      = some (0, registryA) ∧
    (-EINVAL : Int) < 0 ∧
    tplg_define_classes_loop ([classNodeA] ++ classNodeB :: [classNodeA])
        emptyRegistry = some (-EINVAL, registryBA) ∧
    (∃ cls, registryBA.class_list = cls :: registryA.class_list ∧
      cls.name = sndStrlcpy "B") :=
  ⟨by decide, by decide,
    (C6_error_propagation [classNodeA] [classNodeA] classNodeB emptyRegistry
      registryA registryBA (-EINVAL) "B" (by decide) rfl (by decide)
      (by decide) (by decide)).1,
    (C6_error_propagation [classNodeA] [classNodeA] classNodeB emptyRegistry
      registryA registryBA (-EINVAL) "B" (by decide) rfl (by decide)
      (by decide) (by decide)).2⟩

/-- C9: when a unique child holds a non-string value the categories walk
hits the assertion (aborts) instead of returning an error; under the
precondition that every unique child's value is a string the walk always
returns normally, so the assertion is unreachable and the unique branch
never fails. -/
theorem C9_unique_assert (ns : List SndConfig) (category : Nat)
    (cls : TplgClass)
    (h : ∀ n ∈ ns, n.getId = some "unique" → (n.getString).isSome) :
    (tplg_parse_class_attribute_categories_loop ns category cls).isSome ∧
    tplg_parse_class_attribute_categories_loop
        [SndConfig.intNode (some "unique") 5] 0 catClassAB = none :=
  ⟨categories_loop_isSome ns category cls h, by decide⟩

/-- C9 witness: a string-valued unique child keeps the walk normal. -/
theorem C9_unique_assert_witness :
    (∀ n ∈ [SndConfig.strNode (some "unique") "a"],
      n.getId = some "unique" → (n.getString).isSome) ∧
    (tplg_parse_class_attribute_categories_loop
        [SndConfig.strNode (some "unique") "a"] 0 catClassAB).isSome ∧
    tplg_parse_class_attribute_categories_loop
        [SndConfig.intNode (some "unique") 5] 0 catClassAB = none :=
  ⟨by decide,
    (C9_unique_assert [SndConfig.strNode (some "unique") "a"] 0 catClassAB
      (by decide)).1,
    (C9_unique_assert [SndConfig.strNode (some "unique") "a"] 0 catClassAB
      (by decide)).2⟩

/-- C10: at the top level, in a class body, among attribute definitions
and among constraint children, a child whose id cannot be read is skipped:
the result is exactly what it would be without that child. -/
theorem C10_nameless_children_skipped (noid : SndConfig)
    (hn : noid.getId = none) :
    (∀ pre post pp, tplg_define_classes_loop (pre ++ noid :: post) pp
      = tplg_define_classes_loop (pre ++ post) pp) ∧
    (∀ pre post cls, tplg_define_class_loop (pre ++ noid :: post) cls
      = tplg_define_class_loop (pre ++ post) cls) ∧
    (∀ type pre post cls,
      tplg_parse_class_attributes_loop type (pre ++ noid :: post) cls
        = tplg_parse_class_attributes_loop type (pre ++ post) cls) ∧
    (∀ pre post attr,
      tplg_parse_class_constraints_loop (pre ++ noid :: post) attr
        = tplg_parse_class_constraints_loop (pre ++ post) attr) :=
  ⟨classes_loop_skip noid hn, define_class_loop_skip noid hn,
   attributes_loop_skip noid hn, constraints_loop_skip noid hn⟩

/-- C10 witness: a nameless string node inserted between two children is
invisible to the top-level walk. -/
theorem C10_nameless_children_skipped_witness :
    (SndConfig.strNode none "x").getId = none ∧
    tplg_define_classes_loop
        ([classNodeA] ++ SndConfig.strNode none "x" :: [classNodeB])
        emptyRegistry
      = tplg_define_classes_loop ([classNodeA] ++ [classNodeB])
          emptyRegistry :=
  ⟨rfl,
    (C10_nameless_children_skipped (SndConfig.strNode none "x") rfl).1
      [classNodeA] [classNodeB] emptyRegistry⟩
